import Mathlib

/-!
# point-of-view: render dispatch and compiled-template cache

A shallow embedding of `index.js` (the `fastifyView` plugin): the setup
function, the two reply decorators `view` and `viewMarko`, and the read
callback.  Effects on the reply object, the filesystem, the engine and the
cache are recorded, in the order the JavaScript performs them, in an event
log carried by the state.  A JavaScript exception is an explicit outcome
(`Result.thrown`): `index.js` contains no `try`/`catch`, so a throwing engine
call ends the function at that point.
-/

namespace PointOfView

/-! ## Values -/

/-- A JavaScript `Error`, identified by its message. -/
structure Err where
  message : String
deriving DecidableEq, Repr

/-- The JavaScript values a handler may hand to the decorator as `data`. -/
inductive Value where
  | undefined
  | null
  | bool (b : Bool)
  | num (n : Int)
  | str (s : String)
  | obj (fields : List (String × String))
deriving DecidableEq, Repr

/-- JavaScript truthiness of a value (`!data` is its negation). -/
def Value.truthy : Value → Bool
  | .undefined => false
  | .null => false
  | .bool b => b
  | .num n => n != 0
  | .str s => s != ""
  | .obj _ => true

/-- Truthiness of the `page` argument: a string, or `undefined` when the
handler omits it (`reply.view()`); the empty string is falsy. -/
def pageTruthy : Option String → Bool
  | none => false
  | some s => s != ""

/-- The options bag `opts.options`, handed verbatim to `engine.compile`. -/
abbrev Options := List (String × String)

/-- What `engine.compile(html, options)` returns: a function from data to
HTML, which may throw. -/
abbrev Compiled := Value → Except Err String

/-- A readable byte stream, as returned by `template.stream(data)`. -/
structure ReadableStream where
  chunks : List String
deriving DecidableEq, Repr

/-- The object returned by `engine.load(path)`.  `renderToString` is given by
the arguments `(err, html)` it passes to its callback. -/
structure Template where
  renderToString : Value → Except Err String
  stream : Value → ReadableStream

/-- An engine object `opts.engine[type]`.  The object is duck-typed in the
source; an engine lacking one of the two methods is one whose method throws. -/
structure Engine where
  compile : String → Options → Except Err Compiled
  load : String → Except Err Template

/-! ## The compiled-template cache -/

/-- Modelled from the spec: the store returned by `HLRU(max)` (the `hashlru`
package is a dependency, not part of the repository).  Section 4.2: a bounded
key to value store, least-recently-used eviction.  The entries are kept most
recently used first; the bound `max` is fixed at construction and is kept
with the other setup-time constants (`Plugin.max`). -/
abbrev Entries := List (String × Compiled)

/-- Modelled from the spec: the entries other than the one stored under
`key`. -/
def Entries.erase (key : String) (es : Entries) : Entries :=
  es.filter (fun e => e.1 != key)

/-- Modelled from the spec: `lru.get(key)`, section 4.2: returns the entry or
absent; "a `get` that hits counts as a use and refreshes recency". -/
def Entries.get (key : String) (es : Entries) : Option Compiled × Entries :=
  match es.lookup key with
  | none => (none, es)
  | some v => (some v, (key, v) :: Entries.erase key es)

/-- Modelled from the spec: `lru.set(key, value)` on a store of capacity
`max`, section 4.2: "a `set` counts as a use", an existing entry is replaced,
and "insertion beyond capacity evicts the least-recently-used entry". -/
def Entries.set (max : Nat) (key : String) (value : Compiled) (es : Entries) : Entries :=
  ((key, value) :: Entries.erase key es).take max

/-! ## Effects -/

/-- What `reply.send` is given. -/
inductive Payload where
  | error (e : Err)
  | html (body : String)
  | stream (s : ReadableStream)
deriving DecidableEq, Repr

/-- The observable effects of a render call, one constructor per call site of
`index.js`. -/
inductive Event where
  | send (p : Payload)
  | header (name value : String)
  | readFile (path encoding : String)
  | lruGet (key : String)
  | lruSet (key : String)
  | compile (html : String) (options : Options)
  | call (data : Value)
  | load (path : String)
  | stream (data : Value)
  | renderToString (data : Value)
deriving DecidableEq, Repr

/-- The mutable state a render call acts on: the cache and the effects
performed so far, oldest first. -/
structure World where
  lru : Entries
  log : List Event

/-- Record one effect. -/
def World.emit (w : World) (e : Event) : World :=
  { w with log := w.log ++ [e] }

/-- How a function call ended: the state it left, and the exception that
escaped it, if any. -/
structure Result where
  world : World
  thrown : Option Err

/-! ## Setup -/

/-- The Node runtime as seen by the plugin: `process.cwd()`,
`process.env.NODE_ENV` and `path.join`. -/
structure Host where
  cwd : String
  nodeEnv : Option String
  join : String → String → String

/-- The options object handed to the plugin.  `engine` is `none` when the
field is absent or falsy, else the mapping in `Object.keys` order. -/
structure Opts where
  engine : Option (List (String × Engine))
  options : Option Options
  templates : Option String
  maxCache : Option Nat

/-- The two functions `reply.view` may be bound to. -/
inductive Variant where
  | view
  | viewMarko
deriving DecidableEq, Repr

/-- The effects of setup. -/
inductive SetupEvent where
  | next (err : Option Err)
  | hlru (max : Nat)
  | decorateReply (name : String) (fn : Variant)
deriving DecidableEq, Repr

def supportedEngines : List String := ["ejs", "pug", "handlebars", "marko"]

/-- The variables the decorators close over. -/
structure Plugin where
  host : Host
  opts : Opts
  engine : Engine

/-- `opts.options || {}`. -/
def Plugin.options (p : Plugin) : Options :=
  p.opts.options.getD []

/-- `join(process.cwd(), opts.templates || './')`. -/
def Plugin.templatesDir (p : Plugin) : String :=
  p.host.join p.host.cwd
    (match p.opts.templates with
     | none => "./"
     | some t => if t = "" then "./" else t)

/-- `opts.maxCache || 100`, the size handed to `HLRU`. -/
def Plugin.max (p : Plugin) : Nat :=
  match p.opts.maxCache with
  | none => 100
  | some n => if n = 0 then 100 else n

/-- `process.env.NODE_ENV === 'production'`. -/
def Plugin.prod (p : Plugin) : Bool :=
  p.host.nodeEnv == some "production"

/-- The message of the second setup error, for `type` the first key of the
mapping (`undefined` when the mapping has no key). -/
def notSupportedMessage (type : Option String) : String :=
  "'" ++ type.getD "undefined" ++ "' not yet supported, PR? :)"

/-- The plugin function `fastifyView (fastify, opts, next)`: the effects of
setup in order, and the closure the decorator runs in when one was
registered. -/
def fastifyView (host : Host) (opts : Opts) : List SetupEvent × Option Plugin :=
  match opts.engine with
  | none => ([.next (some ⟨"Missing engine"⟩)], none)
  | some mapping =>
    let type := (mapping.map Prod.fst).head?
    match mapping with
    | [] => ([.next (some ⟨notSupportedMessage type⟩)], none)
    | (t, engine) :: _ =>
      if supportedEngines.indexOf t = supportedEngines.length then
        ([.next (some ⟨notSupportedMessage type⟩)], none)
      else
        let p : Plugin := { host := host, opts := opts, engine := engine }
        ([.hlru p.max,
          .decorateReply "view" (if t = "marko" then Variant.viewMarko else Variant.view),
          .next none], some p)

/-! ## The decorators -/

/-- `lru.get(page)` on the state. -/
def lruGet (key : String) (w : World) : Option Compiled × World :=
  let r := Entries.get key w.lru
  (r.1, { lru := r.2, log := w.log ++ [.lruGet key] })

/-- `lru.set(page, value)` on the state. -/
def lruSet (p : Plugin) (key : String) (value : Compiled) (w : World) : World :=
  { lru := Entries.set p.max key value w.lru, log := w.log ++ [.lruSet key] }

/-- How `view` ends: it returned, an exception escaped it, or it returned
after handing `readFile` a path and the callback `readCallback(this, page,
data)`. -/
inductive ViewEnd where
  | returned
  | threw (e : Err)
  | reading (path : String) (page : String) (data : Value)

/-- The error of calling something that is not a function. -/
def notAFunction : Err := ⟨"lru.get(...) is not a function"⟩

/-- The function `view (page, data)`, lines 29-43. -/
def view (p : Plugin) (page : Option String) (data : Value) (w : World) : World × ViewEnd :=
  if !pageTruthy page || !data.truthy then
    (w.emit (.send (.error ⟨"Missing data"⟩)), .returned)
  else
    let key := page.getD ""
    let (toHtml, w1) := lruGet key w
    match toHtml, p.prod with
    | some f, true =>
      let w2 := w1.emit (.header "Content-Type" "text/html")
      let w3 := w2.emit (.call data)
      match f data with
      | .error e => (w3, .threw e)
      | .ok body => (w3.emit (.send (.html body)), .returned)
    | _, _ =>
      let path := p.host.join p.templatesDir key
      (w1.emit (.readFile path "utf8"), .reading path key data)

/-- The function `_readCallback (err, html)` returned by
`readCallback (that, page, data)`, lines 45-55; `res` is the pair
`(err, html)` the filesystem calls it with. -/
def readCallback (p : Plugin) (page : String) (data : Value) (res : Except Err String)
    (w : World) : Result :=
  match res with
  | .error err => ⟨w.emit (.send (.error err)), none⟩
  | .ok html =>
    let w1 := w.emit (.compile html p.options)
    match p.engine.compile html p.options with
    | .error e => ⟨w1, some e⟩
    | .ok fn =>
      let w2 := lruSet p page fn w1
      let w3 := w2.emit (.header "Content-Type" "text/html")
      let (got, w4) := lruGet page w3
      match got with
      | none => ⟨w4, some notAFunction⟩
      | some toHtml =>
        let w5 := w4.emit (.call data)
        match toHtml data with
        | .error e => ⟨w5, some e⟩
        | .ok body => ⟨w5.emit (.send (.html body)), none⟩

/-- The filesystem at the time of a call: what `readFile(path, 'utf8', cb)`
passes to `cb`. -/
abbrev FileSystem := String → Except Err String

/-- One whole render through `reply.view`: `view`, then the read callback
when `view` started a read. -/
def render (p : Plugin) (fs : FileSystem) (page : Option String) (data : Value)
    (w : World) : Result :=
  match view p page data w with
  | (w1, .returned) => ⟨w1, none⟩
  | (w1, .threw e) => ⟨w1, some e⟩
  | (w1, .reading path key d) => readCallback p key d (fs path) w1

/-- The third argument of `viewMarko`: absent, or an object whose `stream`
field is `undefined` when missing. -/
structure RenderOptions where
  stream : Value

/-- `opts && opts.stream`. -/
def streamRequested : Option RenderOptions → Bool
  | none => false
  | some o => o.stream.truthy

/-- The function `viewMarko (page, data, opts)`, lines 57-77, with the
callback `_send (err, html)` run on what `renderToString` passes to it. -/
def viewMarko (p : Plugin) (page : Option String) (data : Value)
    (opts : Option RenderOptions) (w : World) : Result :=
  if !pageTruthy page || !data.truthy then
    ⟨w.emit (.send (.error ⟨"Missing data"⟩)), none⟩
  else
    let path := p.host.join p.templatesDir (page.getD "")
    let w1 := w.emit (.load path)
    match p.engine.load path with
    | .error e => ⟨w1, some e⟩
    | .ok template =>
      if streamRequested opts then
        let w2 := w1.emit (.stream data)
        ⟨w2.emit (.send (.stream (template.stream data))), none⟩
      else
        let w2 := w1.emit (.renderToString data)
        match template.renderToString data with
        | .error err => ⟨w2.emit (.send (.error err)), none⟩
        | .ok html =>
          ⟨(w2.emit (.header "Content-Type" "text/html")).emit (.send (.html html)), none⟩

/-! ## Abbreviations used in the statements -/

/-- The path `join(templatesDir, page)`. -/
def Plugin.pathOf (p : Plugin) (page : String) : String :=
  p.host.join p.templatesDir page

/-- The cache after `lru.set(page, fn)` followed by `lru.get(page)`. -/
def Plugin.stored (p : Plugin) (page : String) (fn : Compiled) (es : Entries) : Entries :=
  (Entries.get page (Entries.set p.max page fn es)).2

/-! ## Sequences of renders -/

/-- One call of `reply.view`, with the filesystem as it is at that time. -/
structure Request where
  fs : FileSystem
  page : Option String
  data : Value

/-- The state after serving the requests one after the other.  A request whose
render throws leaves the state it had reached. -/
def serve (p : Plugin) (w : World) : List Request → World
  | [] => w
  | r :: rs => serve p (render p r.fs r.page r.data w).world rs

/-- The request `r` asks for page `k` with valid input, its template file is
readable and its source compiles to `v`. -/
def StoredBy (p : Plugin) (r : Request) (k : String) (v : Compiled) : Prop :=
  r.page = some k ∧ pageTruthy r.page = true ∧ r.data.truthy = true
    ∧ ∃ html, r.fs (p.pathOf k) = .ok html ∧ p.engine.compile html p.options = .ok v

/-! ## Counting effects -/

/-- The number of filesystem reads in a log. -/
def reads (l : List Event) : Nat :=
  l.countP (fun e => match e with | .readFile _ _ => true | _ => false)

/-- The number of cache writes in a log. -/
def writes (l : List Event) : Nat :=
  l.countP (fun e => match e with | .lruSet _ => true | _ => false)

/-- The number of `engine.compile` calls in a log. -/
def compiles (l : List Event) : Nat :=
  l.countP (fun e => match e with | .compile _ _ => true | _ => false)

/-- The number of responses emitted in a log. -/
def sends (l : List Event) : Nat :=
  l.countP (fun e => match e with | .send _ => true | _ => false)

/-- The state right after setup: an empty cache, nothing done yet. -/
def World.init : World := ⟨[], []⟩

/-! ## Sample inputs -/

/-- A host whose `join` concatenates, running in production. -/
def prodHost : Host := ⟨"/app", some "production", fun a b => a ++ b⟩

/-- The same host outside production. -/
def devHost : Host := ⟨"/app", none, fun a b => a ++ b⟩

/-- A compile-then-call engine: the source `<%` does not compile, any other
source compiles to a function that renders objects and throws on anything
else. -/
def sampleEngine : Engine where
  compile html _ :=
    if html = "<%" then .error ⟨"Could not find matching close tag"⟩
    else .ok (fun d => match d with
      | .obj _ => .ok html
      | _ => .error ⟨"text is not defined"⟩)
  load _ := .error ⟨"engine.load is not a function"⟩

/-- A load-then-render engine: every path loads; rendering the number zero
fails. -/
def sampleMarko : Engine where
  compile _ _ := .error ⟨"engine.compile is not a function"⟩
  load path := .ok
    { renderToString := fun d => match d with
        | .num _ => .error ⟨"render failed"⟩
        | _ => .ok ("<p>" ++ path ++ "</p>")
      stream := fun _ => ⟨["<p>", path, "</p>"]⟩ }

def sampleOpts : Opts := ⟨some [("ejs", sampleEngine)], none, some "/templates/", none⟩

def prodPlugin : Plugin := ⟨prodHost, sampleOpts, sampleEngine⟩

def devPlugin : Plugin := ⟨devHost, sampleOpts, sampleEngine⟩

def markoPlugin : Plugin :=
  ⟨devHost, ⟨some [("marko", sampleMarko)], none, some "/templates/", none⟩, sampleMarko⟩

/-- A filesystem holding one well-formed and one malformed template. -/
def sampleFs : FileSystem := fun path =>
  if path = "/app/templates/index.ejs" then .ok "<p>hi</p>"
  else if path = "/app/templates/broken.ejs" then .ok "<%"
  else .error ⟨"ENOENT: no such file or directory"⟩


/-! ## Facts about the cache -/

theorem Plugin.max_pos (p : Plugin) : 0 < p.max := by
  unfold Plugin.max
  split
  · decide
  · split <;> omega

theorem lookup_erase_self (key : String) (es : Entries) :
    (Entries.erase key es).lookup key = none := by
  induction es with
  | nil => rfl
  | cons e es ih =>
    obtain ⟨k, v⟩ := e
    by_cases h : k = key
    · simpa [Entries.erase, List.filter_cons, h] using ih
    · have hne : (key == k) = false := by simpa using fun h2 => h h2.symm
      simpa [Entries.erase, List.filter_cons, h, List.lookup_cons, hne] using ih

theorem lookup_erase_other (key k : String) (es : Entries) (h : k ≠ key) :
    (Entries.erase key es).lookup k = es.lookup k := by
  induction es with
  | nil => rfl
  | cons e es ih =>
    obtain ⟨k2, v⟩ := e
    by_cases h2 : k2 = key
    · subst h2
      have hne : (k == k2) = false := by simpa using h
      simpa [Entries.erase, List.filter_cons, List.lookup_cons, hne] using ih
    · by_cases h3 : k = k2
      · subst h3
        simp [Entries.erase, List.filter_cons, h2, List.lookup_cons]
      · have hne : (k == k2) = false := by simpa using h3
        simpa [Entries.erase, List.filter_cons, h2, List.lookup_cons, hne] using ih

/-- A hit of `get` leaves every binding as it was. -/
theorem lookup_get (key k : String) (es : Entries) :
    (Entries.get key es).2.lookup k = es.lookup k := by
  unfold Entries.get
  cases hl : es.lookup key with
  | none => rfl
  | some v =>
    by_cases h : k = key
    · subst h
      simp [List.lookup_cons, hl]
    · have hne : (k == key) = false := by simpa using h
      simp [List.lookup_cons, hne, lookup_erase_other key k es h]

theorem get_fst (key : String) (es : Entries) :
    (Entries.get key es).1 = es.lookup key := by
  unfold Entries.get
  cases hl : es.lookup key <;> rfl

/-- Right after `set`, the key is bound to the value just stored, whatever
was stored before, as long as the capacity is positive. -/
theorem lookup_set_self (max : Nat) (hmax : 0 < max) (key : String) (v : Compiled)
    (es : Entries) : (Entries.set max key v es).lookup key = some v := by
  obtain ⟨n, rfl⟩ : ∃ n, max = n + 1 := ⟨max - 1, by omega⟩
  simp [Entries.set, List.take_succ_cons, List.lookup_cons]

/-! ## One step of each function -/

theorem lookup_stored (p : Plugin) (page : String) (fn : Compiled) (es : Entries) :
    (p.stored page fn es).lookup page = some fn := by
  unfold Plugin.stored
  rw [lookup_get]
  exact lookup_set_self p.max p.max_pos page fn es

/-- With valid input and either no entry for `page` or a non-production run,
`view` does a cache get, starts the read and returns. -/
theorem view_reading (p : Plugin) (page : String) (data : Value) (w : World)
    (hp : pageTruthy (some page) = true) (hd : data.truthy = true)
    (hfall : w.lru.lookup page = none ∨ p.prod = false) :
    view p (some page) data w
      = (⟨(Entries.get page w.lru).2,
          w.log ++ [.lruGet page, .readFile (p.pathOf page) "utf8"]⟩,
         ViewEnd.reading (p.pathOf page) page data) := by
  unfold view
  simp only [hp, hd, Bool.not_true, Bool.or_self, Bool.false_eq_true, if_false, lruGet,
    Option.getD_some, get_fst]
  rcases hfall with h | h
  · rw [h]
    simp [World.emit, Plugin.pathOf]
  · rw [h]
    cases w.lru.lookup page <;> simp [World.emit, Plugin.pathOf]

/-- With valid input, in production and with an entry `f` for `page`, `view`
does a cache get, sets the header, calls `f` and sends what it returns; when
`f` throws, the exception escapes after the header was set. -/
theorem view_hit (p : Plugin) (page : String) (data : Value) (w : World) (f : Compiled)
    (hp : pageTruthy (some page) = true) (hd : data.truthy = true)
    (hprod : p.prod = true) (hf : w.lru.lookup page = some f) :
    view p (some page) data w
      = match f data with
        | .error e =>
          (⟨(Entries.get page w.lru).2,
            w.log ++ [.lruGet page, .header "Content-Type" "text/html", .call data]⟩,
           ViewEnd.threw e)
        | .ok body =>
          (⟨(Entries.get page w.lru).2,
            w.log ++ [.lruGet page, .header "Content-Type" "text/html", .call data,
              .send (.html body)]⟩,
           ViewEnd.returned) := by
  unfold view
  simp only [hp, hd, Bool.not_true, Bool.or_self, Bool.false_eq_true, if_false, lruGet,
    Option.getD_some, get_fst, hf, hprod]
  cases f data <;> simp [World.emit]

/-- The read callback on a failed read. -/
theorem readCallback_error (p : Plugin) (page : String) (data : Value) (err : Err)
    (w : World) :
    readCallback p page data (.error err) w
      = ⟨⟨w.lru, w.log ++ [.send (.error err)]⟩, none⟩ := rfl

/-- The read callback when `engine.compile` throws. -/
theorem readCallback_compile_error (p : Plugin) (page : String) (data : Value)
    (html : String) (e : Err) (w : World)
    (hc : p.engine.compile html p.options = .error e) :
    readCallback p page data (.ok html) w
      = ⟨⟨w.lru, w.log ++ [.compile html p.options]⟩, some e⟩ := by
  unfold readCallback
  simp only [hc]
  rfl

/-- The read callback when `engine.compile` returns `fn`. -/
theorem readCallback_compiled (p : Plugin) (page : String) (data : Value)
    (html : String) (fn : Compiled) (w : World)
    (hc : p.engine.compile html p.options = .ok fn) :
    readCallback p page data (.ok html) w
      = match fn data with
        | .error e =>
          ⟨⟨p.stored page fn w.lru,
            w.log ++ [.compile html p.options, .lruSet page,
              .header "Content-Type" "text/html", .lruGet page, .call data]⟩, some e⟩
        | .ok body =>
          ⟨⟨p.stored page fn w.lru,
            w.log ++ [.compile html p.options, .lruSet page,
              .header "Content-Type" "text/html", .lruGet page, .call data,
              .send (.html body)]⟩, none⟩ := by
  have hget : (Entries.get page (Entries.set p.max page fn w.lru)).1 = some fn := by
    rw [get_fst]
    exact lookup_set_self p.max p.max_pos page fn w.lru
  unfold readCallback
  simp only [hc, lruGet, lruSet, World.emit, hget]
  cases fn data <;> simp [Plugin.stored]

/-- A render that falls through to the read is the read callback run on what
the filesystem returns. -/
theorem render_reading (p : Plugin) (fs : FileSystem) (page : String) (data : Value)
    (w : World) (hp : pageTruthy (some page) = true) (hd : data.truthy = true)
    (hfall : w.lru.lookup page = none ∨ p.prod = false) :
    render p fs (some page) data w
      = readCallback p page data (fs (p.pathOf page))
          ⟨(Entries.get page w.lru).2,
           w.log ++ [.lruGet page, .readFile (p.pathOf page) "utf8"]⟩ := by
  unfold render
  rw [view_reading p page data w hp hd hfall]

/-- A render served from the cache: `view` alone, no read. -/
theorem render_hit (p : Plugin) (fs : FileSystem) (page : String) (data : Value)
    (w : World) (f : Compiled)
    (hp : pageTruthy (some page) = true) (hd : data.truthy = true)
    (hprod : p.prod = true) (hf : w.lru.lookup page = some f) :
    render p fs (some page) data w
      = match f data with
        | .error e =>
          ⟨⟨(Entries.get page w.lru).2,
            w.log ++ [.lruGet page, .header "Content-Type" "text/html", .call data]⟩,
           some e⟩
        | .ok body =>
          ⟨⟨(Entries.get page w.lru).2,
            w.log ++ [.lruGet page, .header "Content-Type" "text/html", .call data,
              .send (.html body)]⟩,
           none⟩ := by
  unfold render
  rw [view_hit p page data w f hp hd hprod hf]
  cases f data <;> rfl

/-- A render with falsy `page` or `data`: one send, nothing else. -/
theorem view_missing (p : Plugin) (page : Option String) (data : Value) (w : World)
    (h : pageTruthy page = false ∨ data.truthy = false) :
    view p page data w
      = (⟨w.lru, w.log ++ [.send (.error ⟨"Missing data"⟩)]⟩, ViewEnd.returned) := by
  have hc : (!pageTruthy page || !data.truthy) = true := by
    rcases h with h | h <;> simp [h]
  unfold view
  rw [if_pos hc]
  rfl

theorem render_missing (p : Plugin) (fs : FileSystem) (page : Option String) (data : Value)
    (w : World) (h : pageTruthy page = false ∨ data.truthy = false) :
    render p fs page data w
      = ⟨⟨w.lru, w.log ++ [.send (.error ⟨"Missing data"⟩)]⟩, none⟩ := by
  unfold render
  rw [view_missing p page data w h]

/-- A render that reads a source which compiles to `fn`. -/
theorem render_compiled (p : Plugin) (fs : FileSystem) (page : String) (data : Value)
    (w : World) (html : String) (fn : Compiled)
    (hp : pageTruthy (some page) = true) (hd : data.truthy = true)
    (hfall : w.lru.lookup page = none ∨ p.prod = false)
    (hread : fs (p.pathOf page) = .ok html)
    (hc : p.engine.compile html p.options = .ok fn) :
    render p fs (some page) data w
      = match fn data with
        | .error e =>
          ⟨⟨p.stored page fn (Entries.get page w.lru).2,
            w.log ++ [.lruGet page, .readFile (p.pathOf page) "utf8",
              .compile html p.options, .lruSet page,
              .header "Content-Type" "text/html", .lruGet page, .call data]⟩, some e⟩
        | .ok body =>
          ⟨⟨p.stored page fn (Entries.get page w.lru).2,
            w.log ++ [.lruGet page, .readFile (p.pathOf page) "utf8",
              .compile html p.options, .lruSet page,
              .header "Content-Type" "text/html", .lruGet page, .call data,
              .send (.html body)]⟩, none⟩ := by
  rw [render_reading p fs page data w hp hd hfall, hread,
    readCallback_compiled p page data html fn _ hc]
  cases fn data <;> simp

/-- After such a render the page is bound to the function just compiled. -/
theorem render_compiled_lookup (p : Plugin) (fs : FileSystem) (page : String)
    (data : Value) (w : World) (html : String) (fn : Compiled)
    (hp : pageTruthy (some page) = true) (hd : data.truthy = true)
    (hfall : w.lru.lookup page = none ∨ p.prod = false)
    (hread : fs (p.pathOf page) = .ok html)
    (hc : p.engine.compile html p.options = .ok fn) :
    (render p fs (some page) data w).world.lru.lookup page = some fn := by
  rw [render_compiled p fs page data w html fn hp hd hfall hread hc]
  cases fn data <;> exact lookup_stored p page fn _

/-! ## Missing input -/

/-- C2: for both variants, when `page` is falsy or `data` is falsy the call
does exactly one thing: it sends an `Error` whose message is `Missing data`.
Nothing else is added to the log (no filesystem read, no cache get or set, no
engine call, no header), no exception escapes, and the cache is the one the
call started with. -/
theorem missing_data_sends_error_only (p : Plugin) (fs : FileSystem) (page : Option String)
    (data : Value) (ropts : Option RenderOptions) (w : World)
    (h : pageTruthy page = false ∨ data.truthy = false) :
    view p page data w
        = (⟨w.lru, w.log ++ [.send (.error ⟨"Missing data"⟩)]⟩, ViewEnd.returned)
      ∧ render p fs page data w
        = ⟨⟨w.lru, w.log ++ [.send (.error ⟨"Missing data"⟩)]⟩, none⟩
      ∧ viewMarko p page data ropts w
        = ⟨⟨w.lru, w.log ++ [.send (.error ⟨"Missing data"⟩)]⟩, none⟩ := by
  refine ⟨view_missing p page data w h, render_missing p fs page data w h, ?_⟩
  have hc : (!pageTruthy page || !data.truthy) = true := by
    rcases h with h | h <;> simp [h]
  unfold viewMarko
  rw [if_pos hc]
  rfl

/-- Witness for C2: `reply.view()` with no argument on the sample plugin. -/
theorem missing_data_sends_error_only_witness :
    render prodPlugin sampleFs none .undefined World.init
      = ⟨⟨[], [.send (.error ⟨"Missing data"⟩)]⟩, none⟩ :=
  (missing_data_sends_error_only prodPlugin sampleFs none .undefined none World.init
    (Or.inl rfl)).2.1

/-! ## Setup -/

/-- C9: when the `engine` field is absent or falsy, setup does exactly one
thing: it calls `next` once with an `Error` whose message is `Missing engine`.
No cache is constructed, no decorator is registered, and no closure exists
(setup does not succeed). -/
theorem missing_engine_setup (host : Host) (opts : Opts) (h : opts.engine = none) :
    fastifyView host opts = ([.next (some ⟨"Missing engine"⟩)], none) := by
  unfold fastifyView
  rw [h]

/-- Witness for C9: the empty options object. -/
theorem missing_engine_setup_witness :
    fastifyView devHost ⟨none, none, none, none⟩ = ([.next (some ⟨"Missing engine"⟩)], none) :=
  missing_engine_setup devHost ⟨none, none, none, none⟩ rfl

/-- C10: with a truthy engine mapping, setup looks at the first key only.  It
succeeds if and only if that key is one of `ejs`, `pug`, `handlebars`,
`marko`: it then constructs the cache, registers the `view` decorator and
calls `next` with no error.  Otherwise it calls `next` once with the error
`'<key>' not yet supported, PR? :)` and registers nothing.  The effects are
the same for every tail `rest` of the mapping.  A mapping with no key at all
is refused with the key shown as `undefined`. -/
theorem engine_first_key_decides (host : Host) (opts : Opts) (mapping : List (String × Engine))
    (h : opts.engine = some mapping) :
    (∀ key engine rest, mapping = (key, engine) :: rest →
        ((fastifyView host opts).2.isSome = true
            ↔ key ∈ ["ejs", "pug", "handlebars", "marko"])
          ∧ (key ∈ ["ejs", "pug", "handlebars", "marko"] →
              fastifyView host opts
                = ([.hlru (Plugin.max ⟨host, opts, engine⟩),
                    .decorateReply "view"
                      (if key = "marko" then Variant.viewMarko else Variant.view),
                    .next none], some ⟨host, opts, engine⟩))
          ∧ (key ∉ ["ejs", "pug", "handlebars", "marko"] →
              fastifyView host opts
                = ([.next (some ⟨"'" ++ key ++ "' not yet supported, PR? :)"⟩)], none)))
      ∧ (mapping = [] →
          fastifyView host opts
            = ([.next (some ⟨"'undefined' not yet supported, PR? :)"⟩)], none)) := by
  constructor
  · intro key engine rest hm
    subst hm
    have hidx : supportedEngines.indexOf key = supportedEngines.length
        ↔ key ∉ ["ejs", "pug", "handlebars", "marko"] := by
      rw [List.indexOf_eq_length]
      rfl
    have hyes : key ∈ ["ejs", "pug", "handlebars", "marko"] →
        fastifyView host opts
          = ([.hlru (Plugin.max ⟨host, opts, engine⟩),
              .decorateReply "view"
                (if key = "marko" then Variant.viewMarko else Variant.view),
              .next none], some ⟨host, opts, engine⟩) := by
      intro hk
      unfold fastifyView
      rw [h]
      have : ¬ supportedEngines.indexOf key = supportedEngines.length :=
        fun hc => hidx.1 hc hk
      simp only [this, if_false]
    have hno : key ∉ ["ejs", "pug", "handlebars", "marko"] →
        fastifyView host opts
          = ([.next (some ⟨"'" ++ key ++ "' not yet supported, PR? :)"⟩)], none) := by
      intro hk
      unfold fastifyView
      rw [h]
      have : supportedEngines.indexOf key = supportedEngines.length := hidx.2 hk
      simp only [this, if_true]
      rfl
    refine ⟨?_, hyes, hno⟩
    by_cases hk : key ∈ ["ejs", "pug", "handlebars", "marko"]
    · rw [hyes hk]
      simp [hk]
    · rw [hno hk]
      simp [hk]
  · intro hm
    subst hm
    unfold fastifyView
    rw [h]
    rfl

/-- Witness for C10: the mapping of the test suite, `{ notSupported: null }`,
followed by a supported key that is not looked at. -/
theorem engine_first_key_decides_witness :
    fastifyView devHost ⟨some [("notSupported", sampleEngine), ("ejs", sampleEngine)], none, none, none⟩
      = ([.next (some ⟨"'notSupported' not yet supported, PR? :)"⟩)], none) :=
  ((engine_first_key_decides devHost
    ⟨some [("notSupported", sampleEngine), ("ejs", sampleEngine)], none, none, none⟩
    [("notSupported", sampleEngine), ("ejs", sampleEngine)] rfl).1
    "notSupported" sampleEngine [("ejs", sampleEngine)] rfl).2.2 (by decide)

/-! ## Counting lemmas -/

theorem reads_append (l l2 : List Event) : reads (l ++ l2) = reads l + reads l2 := by
  simp [reads, List.countP_append]

theorem writes_append (l l2 : List Event) : writes (l ++ l2) = writes l + writes l2 := by
  simp [writes, List.countP_append]

theorem compiles_append (l l2 : List Event) : compiles (l ++ l2) = compiles l + compiles l2 := by
  simp [compiles, List.countP_append]

theorem sends_append (l l2 : List Event) : sends (l ++ l2) = sends l + sends l2 := by
  simp [sends, List.countP_append]

/-- The read callback never reads a file. -/
theorem readCallback_reads (p : Plugin) (page : String) (data : Value)
    (res : Except Err String) (w : World) :
    reads (readCallback p page data res w).world.log = reads w.log := by
  cases res with
  | error err => simp [readCallback_error, reads_append, reads]
  | ok html =>
    cases hc : p.engine.compile html p.options with
    | error e => simp [readCallback_compile_error p page data html e w hc, reads_append, reads]
    | ok fn =>
      rw [readCallback_compiled p page data html fn w hc]
      cases fn data <;> simp [reads_append, reads]

/-- What the read callback logs and throws does not depend on the cache it
starts from. -/
theorem readCallback_cache_independent (p : Plugin) (page : String) (data : Value)
    (res : Except Err String) (es es2 : Entries) (log : List Event) :
    (readCallback p page data res ⟨es, log⟩).world.log
        = (readCallback p page data res ⟨es2, log⟩).world.log
      ∧ (readCallback p page data res ⟨es, log⟩).thrown
        = (readCallback p page data res ⟨es2, log⟩).thrown := by
  cases res with
  | error err => simp [readCallback_error]
  | ok html =>
    cases hc : p.engine.compile html p.options with
    | error e => simp [readCallback_compile_error p page data html e _ hc]
    | ok fn =>
      rw [readCallback_compiled p page data html fn _ hc,
        readCallback_compiled p page data html fn _ hc]
      cases fn data <;> simp

/-! ## A render that reads the template -/

/-- C1, as stated, fails: with truthy `page` and `data`, a render that falls
through to the read and whose read succeeds stores nothing, sets no header
and sends nothing when the source does not compile; and when the compiled
function throws on its data, the entry is stored and the header set but
nothing is sent. -/
theorem read_success_without_store_or_send :
    pageTruthy (some "broken.ejs") = true
      ∧ (Value.obj []).truthy = true
      ∧ (World.init.lru.lookup "broken.ejs" = none ∨ devPlugin.prod = false)
      ∧ sampleFs (devPlugin.pathOf "broken.ejs") = .ok "<%"
      ∧ (render devPlugin sampleFs (some "broken.ejs") (.obj []) World.init).world.log
          = [.lruGet "broken.ejs", .readFile "/app/templates/broken.ejs" "utf8",
              .compile "<%" []]
      ∧ (render devPlugin sampleFs (some "broken.ejs") (.obj []) World.init).world.lru.lookup
          "broken.ejs" = none
      ∧ (Value.str "x").truthy = true
      ∧ sampleFs (devPlugin.pathOf "index.ejs") = .ok "<p>hi</p>"
      ∧ (render devPlugin sampleFs (some "index.ejs") (.str "x") World.init).world.log
          = [.lruGet "index.ejs", .readFile "/app/templates/index.ejs" "utf8",
              .compile "<p>hi</p>" [], .lruSet "index.ejs",
              .header "Content-Type" "text/html", .lruGet "index.ejs",
              .call (.str "x")] :=
  ⟨rfl, rfl, Or.inl rfl, rfl, by decide, rfl, rfl, rfl, by decide⟩

/-- C1, amended: for truthy `page` and `data`, when the render falls through
to the read (no entry for `page`, or not in production) and the read of
`join(templatesDir, page)` succeeds with `html`: `engine.compile` is called
with `html` and the configured options; when it returns `fn`, `fn` is stored
under `page`, whatever was stored before, and `Content-Type` is set to
`text/html`; and when `fn data` returns `body`, the call sends `body`, with
nothing else sent and no exception. -/
theorem read_success_compiles_stores_sends (p : Plugin) (fs : FileSystem) (page : String)
    (data : Value) (w : World) (html : String)
    (hp : pageTruthy (some page) = true) (hd : data.truthy = true)
    (hfall : w.lru.lookup page = none ∨ p.prod = false)
    (hread : fs (p.pathOf page) = .ok html) :
    (∃ rest, (render p fs (some page) data w).world.log
        = w.log ++ [.lruGet page, .readFile (p.pathOf page) "utf8",
            .compile html p.options] ++ rest)
      ∧ ∀ fn, p.engine.compile html p.options = .ok fn →
          (render p fs (some page) data w).world.lru.lookup page = some fn
          ∧ (∃ rest, (render p fs (some page) data w).world.log
              = w.log ++ [.lruGet page, .readFile (p.pathOf page) "utf8",
                  .compile html p.options, .lruSet page,
                  .header "Content-Type" "text/html"] ++ rest)
          ∧ ∀ body, fn data = .ok body →
              render p fs (some page) data w
                = ⟨⟨p.stored page fn (Entries.get page w.lru).2,
                    w.log ++ [.lruGet page, .readFile (p.pathOf page) "utf8",
                      .compile html p.options, .lruSet page,
                      .header "Content-Type" "text/html", .lruGet page, .call data,
                      .send (.html body)]⟩, none⟩ := by
  constructor
  · rw [render_reading p fs page data w hp hd hfall, hread]
    cases hc : p.engine.compile html p.options with
    | error e =>
      exact ⟨[], by simp [readCallback_compile_error p page data html e _ hc]⟩
    | ok fn =>
      rw [readCallback_compiled p page data html fn _ hc]
      cases fn data with
      | error e =>
        exact ⟨[.lruSet page, .header "Content-Type" "text/html", .lruGet page,
          .call data], by simp⟩
      | ok body =>
        exact ⟨[.lruSet page, .header "Content-Type" "text/html", .lruGet page,
          .call data, .send (.html body)], by simp⟩
  · intro fn hc
    refine ⟨render_compiled_lookup p fs page data w html fn hp hd hfall hread hc, ?_, ?_⟩
    · rw [render_compiled p fs page data w html fn hp hd hfall hread hc]
      cases fn data with
      | error e => exact ⟨[.lruGet page, .call data], by simp⟩
      | ok body => exact ⟨[.lruGet page, .call data, .send (.html body)], by simp⟩
    · intro body hb
      rw [render_compiled p fs page data w html fn hp hd hfall hread hc, hb]

/-- Witness for C1 amended: the first render of `index.ejs` on the sample
plugin. -/
theorem read_success_compiles_stores_sends_witness :
    (render prodPlugin sampleFs (some "index.ejs") (.obj []) World.init).world.log
      = [.lruGet "index.ejs", .readFile "/app/templates/index.ejs" "utf8",
          .compile "<p>hi</p>" [], .lruSet "index.ejs",
          .header "Content-Type" "text/html", .lruGet "index.ejs", .call (.obj []),
          .send (.html "<p>hi</p>")] :=
  congrArg (fun r => r.world.log)
    (((read_success_compiles_stores_sends prodPlugin sampleFs "index.ejs" (.obj [])
      World.init "<p>hi</p>" rfl rfl (Or.inl rfl) rfl).2
      (fun d => match d with
        | .obj _ => .ok "<p>hi</p>"
        | _ => .error ⟨"text is not defined"⟩) rfl).2.2 "<p>hi</p>" rfl)

/-- C5: when the read fails with `e`, the read callback sends `e` itself and
does nothing else: the cache is the one it started with, no header is set and
`engine.compile` is not called.  For the whole render, the log of the call is
the cache get, the read and the send of `e`, no exception escapes, and no
cache write is performed. -/
theorem read_failure_sends_the_error (p : Plugin) (fs : FileSystem) (page : String)
    (data : Value) (w : World) (e : Err)
    (hp : pageTruthy (some page) = true) (hd : data.truthy = true)
    (hfall : w.lru.lookup page = none ∨ p.prod = false)
    (hread : fs (p.pathOf page) = .error e) :
    (∀ w2 : World, readCallback p page data (.error e) w2
        = ⟨⟨w2.lru, w2.log ++ [.send (.error e)]⟩, none⟩)
      ∧ render p fs (some page) data w
        = ⟨⟨(Entries.get page w.lru).2,
            w.log ++ [.lruGet page, .readFile (p.pathOf page) "utf8",
              .send (.error e)]⟩, none⟩
      ∧ writes (render p fs (some page) data w).world.log = writes w.log := by
  have hr : render p fs (some page) data w
      = ⟨⟨(Entries.get page w.lru).2,
          w.log ++ [.lruGet page, .readFile (p.pathOf page) "utf8",
            .send (.error e)]⟩, none⟩ := by
    rw [render_reading p fs page data w hp hd hfall, hread, readCallback_error]
    simp
  refine ⟨fun w2 => rfl, hr, ?_⟩
  rw [hr]
  simp [writes_append, writes]

/-- Witness for C5: a template that does not exist. -/
theorem read_failure_sends_the_error_witness :
    render prodPlugin sampleFs (some "missing.ejs") (.obj []) World.init
      = ⟨⟨[], [.lruGet "missing.ejs", .readFile "/app/templates/missing.ejs" "utf8",
          .send (.error ⟨"ENOENT: no such file or directory"⟩)]⟩, none⟩ :=
  (read_failure_sends_the_error prodPlugin sampleFs "missing.ejs" (.obj []) World.init
    ⟨"ENOENT: no such file or directory"⟩ rfl rfl (Or.inl rfl) rfl).2.1

/-! ## Production: the second render is served from the cache -/

/-- C3, as stated, fails: in production, with valid input, a readable file and
no entry for the page, a first render whose source does not compile performs
one read and no cache write. -/
theorem first_render_without_write :
    prodPlugin.prod = true
      ∧ pageTruthy (some "broken.ejs") = true
      ∧ (Value.obj []).truthy = true
      ∧ World.init.lru.lookup "broken.ejs" = none
      ∧ sampleFs (prodPlugin.pathOf "broken.ejs") = .ok "<%"
      ∧ reads (render prodPlugin sampleFs (some "broken.ejs") (.obj []) World.init).world.log = 1
      ∧ writes (render prodPlugin sampleFs (some "broken.ejs") (.obj []) World.init).world.log
          ≠ 1 :=
  ⟨rfl, rfl, rfl, rfl, rfl, by decide, by decide⟩

/-- C3, amended: in production, for truthy `page` and `data`, a readable file
whose source compiles to `fn` with `fn data` returning `body`, and no entry
for `page`: the first render performs exactly one read, one compile and one
cache write and sends `body`; a second render of the same page and data,
right after it and whatever the filesystem then holds, performs no read, no
compile and no cache write, sets `Content-Type` to `text/html` and sends the
same `body`. -/
theorem production_second_render_from_cache (p : Plugin) (fs fs2 : FileSystem)
    (page : String) (data : Value) (w : World) (html : String) (fn : Compiled)
    (body : String)
    (hprod : p.prod = true)
    (hp : pageTruthy (some page) = true) (hd : data.truthy = true)
    (hmiss : w.lru.lookup page = none)
    (hread : fs (p.pathOf page) = .ok html)
    (hcomp : p.engine.compile html p.options = .ok fn)
    (hbody : fn data = .ok body) :
    (render p fs (some page) data w).world.log
        = w.log ++ [.lruGet page, .readFile (p.pathOf page) "utf8",
            .compile html p.options, .lruSet page,
            .header "Content-Type" "text/html", .lruGet page, .call data,
            .send (.html body)]
      ∧ (render p fs (some page) data w).thrown = none
      ∧ reads (render p fs (some page) data w).world.log = reads w.log + 1
      ∧ writes (render p fs (some page) data w).world.log = writes w.log + 1
      ∧ (render p fs2 (some page) data (render p fs (some page) data w).world).world.log
        = (render p fs (some page) data w).world.log
            ++ [.lruGet page, .header "Content-Type" "text/html", .call data,
              .send (.html body)]
      ∧ (render p fs2 (some page) data (render p fs (some page) data w).world).thrown = none
      ∧ reads (render p fs2 (some page) data (render p fs (some page) data w).world).world.log
        = reads (render p fs (some page) data w).world.log
      ∧ compiles (render p fs2 (some page) data (render p fs (some page) data w).world).world.log
        = compiles (render p fs (some page) data w).world.log
      ∧ writes (render p fs2 (some page) data (render p fs (some page) data w).world).world.log
        = writes (render p fs (some page) data w).world.log := by
  have h1 := render_compiled p fs page data w html fn hp hd (Or.inl hmiss) hread hcomp
  rw [hbody] at h1
  have hl : (render p fs (some page) data w).world.lru.lookup page = some fn :=
    render_compiled_lookup p fs page data w html fn hp hd (Or.inl hmiss) hread hcomp
  have h3 := render_hit p fs2 page data (render p fs (some page) data w).world fn hp hd
    hprod hl
  rw [hbody] at h3
  rw [h3]
  rw [h1]
  simp [reads_append, writes_append, compiles_append, reads, writes, compiles]

/-- Witness for C3 amended: two renders of `index.ejs` in production. -/
theorem production_second_render_from_cache_witness :
    (render prodPlugin sampleFs (some "index.ejs") (.obj [])
        (render prodPlugin sampleFs (some "index.ejs") (.obj []) World.init).world).world.log
      = (render prodPlugin sampleFs (some "index.ejs") (.obj []) World.init).world.log
          ++ [.lruGet "index.ejs", .header "Content-Type" "text/html", .call (.obj []),
            .send (.html "<p>hi</p>")] :=
  (production_second_render_from_cache prodPlugin sampleFs sampleFs "index.ejs" (.obj [])
    World.init "<p>hi</p>"
    (fun d => match d with
      | .obj _ => .ok "<p>hi</p>"
      | _ => .error ⟨"text is not defined"⟩)
    "<p>hi</p>" rfl rfl rfl rfl rfl rfl rfl).2.2.2.2.1

/-! ## Outside production: every render reads -/

/-- C4, as stated, fails: outside production, with valid input, a render
whose read fails on an empty cache leaves no entry for the page. -/
theorem no_entry_after_failed_read :
    devPlugin.prod = false
      ∧ pageTruthy (some "missing.ejs") = true
      ∧ (Value.obj []).truthy = true
      ∧ reads (render devPlugin sampleFs (some "missing.ejs") (.obj []) World.init).world.log = 1
      ∧ (render devPlugin sampleFs (some "missing.ejs") (.obj []) World.init).world.lru.lookup
          "missing.ejs" = none :=
  ⟨rfl, rfl, rfl, by decide, rfl⟩

/-- C4, amended: outside production, for truthy `page` and `data` and every
prior cache, the render performs exactly one read; what it logs and throws is
the same for every prior cache (a cached entry is never used to serve); when
the read and the compilation succeed, `page` is bound to the newly compiled
function after the call; and `page` has an entry after the call exactly when
it had one before or the read and the compilation succeeded. -/
theorem dev_render_always_reads (p : Plugin) (fs : FileSystem) (page : String)
    (data : Value) (w : World)
    (hdev : p.prod = false)
    (hp : pageTruthy (some page) = true) (hd : data.truthy = true) :
    reads (render p fs (some page) data w).world.log = reads w.log + 1
      ∧ (∀ es : Entries,
          (render p fs (some page) data ⟨es, w.log⟩).world.log
              = (render p fs (some page) data w).world.log
            ∧ (render p fs (some page) data ⟨es, w.log⟩).thrown
              = (render p fs (some page) data w).thrown)
      ∧ (∀ html fn, fs (p.pathOf page) = .ok html →
          p.engine.compile html p.options = .ok fn →
          (render p fs (some page) data w).world.lru.lookup page = some fn)
      ∧ (((render p fs (some page) data w).world.lru.lookup page).isSome = true
          ↔ (w.lru.lookup page).isSome = true
            ∨ ∃ html fn, fs (p.pathOf page) = .ok html
                ∧ p.engine.compile html p.options = .ok fn) := by
  have hr := fun w2 : World => render_reading p fs page data w2 hp hd (Or.inr hdev)
  refine ⟨?_, ?_, ?_, ?_⟩
  · rw [hr w, readCallback_reads]
    simp [reads_append, reads]
  · intro es
    rw [hr w, hr ⟨es, w.log⟩]
    exact readCallback_cache_independent p page data _ _ _ _
  · intro html fn hread hcomp
    exact render_compiled_lookup p fs page data w html fn hp hd (Or.inr hdev) hread hcomp
  · rw [hr w]
    cases hread : fs (p.pathOf page) with
    | error e =>
      rw [readCallback_error]
      simp [lookup_get]
    | ok html =>
      cases hc : p.engine.compile html p.options with
      | error e =>
        rw [readCallback_compile_error p page data html e _ hc]
        simp [lookup_get, hc]
      | ok fn =>
        rw [readCallback_compiled p page data html fn _ hc]
        cases fn data <;> simp [lookup_stored, hc]

/-- Witness for C4 amended: a render of `index.ejs` outside production. -/
theorem dev_render_always_reads_witness :
    reads (render devPlugin sampleFs (some "index.ejs") (.obj []) World.init).world.log
      = reads World.init.log + 1 :=
  (dev_render_always_reads devPlugin sampleFs "index.ejs" (.obj []) World.init
    rfl rfl rfl).1

/-! ## Engine failures -/

/-- C7: the code at two failing inputs.  A source that does not compile, and
a compiled template that throws on its data, both end the render with no
response sent: the error leaves the call as an exception instead of being
handed to `reply.send`. -/
theorem engine_failure_emits_nothing :
    sampleFs (prodPlugin.pathOf "broken.ejs") = .ok "<%"
      ∧ prodPlugin.engine.compile "<%" prodPlugin.options
          = .error ⟨"Could not find matching close tag"⟩
      ∧ sends (render prodPlugin sampleFs (some "broken.ejs") (.obj []) World.init).world.log = 0
      ∧ (render prodPlugin sampleFs (some "broken.ejs") (.obj []) World.init).thrown
          = some ⟨"Could not find matching close tag"⟩
      ∧ sampleFs (prodPlugin.pathOf "index.ejs") = .ok "<p>hi</p>"
      ∧ (∃ fn, prodPlugin.engine.compile "<p>hi</p>" prodPlugin.options = .ok fn
          ∧ fn (.num 1) = .error ⟨"text is not defined"⟩)
      ∧ sends (render prodPlugin sampleFs (some "index.ejs") (.num 1) World.init).world.log = 0
      ∧ (render prodPlugin sampleFs (some "index.ejs") (.num 1) World.init).thrown
          = some ⟨"text is not defined"⟩ :=
  ⟨rfl, rfl, by decide, by decide, rfl, ⟨_, rfl, rfl⟩, by decide, by decide⟩

/-- What `render` does, for every input, when an engine call throws: nothing
is sent.  After a compile failure the log ends with the compile; after a
failed invocation, of a function just compiled or of one served from the
cache in production, it ends with the call, the header having been set. -/
theorem engine_failure_escapes (p : Plugin) (fs : FileSystem) (page : String)
    (data : Value) (w : World) (e : Err)
    (hp : pageTruthy (some page) = true) (hd : data.truthy = true) :
    (∀ html, (w.lru.lookup page = none ∨ p.prod = false) →
        fs (p.pathOf page) = .ok html →
        p.engine.compile html p.options = .error e →
        render p fs (some page) data w
            = ⟨⟨(Entries.get page w.lru).2,
                w.log ++ [.lruGet page, .readFile (p.pathOf page) "utf8",
                  .compile html p.options]⟩, some e⟩
          ∧ sends (render p fs (some page) data w).world.log = sends w.log)
      ∧ (∀ html fn, (w.lru.lookup page = none ∨ p.prod = false) →
        fs (p.pathOf page) = .ok html →
        p.engine.compile html p.options = .ok fn →
        fn data = .error e →
        render p fs (some page) data w
            = ⟨⟨p.stored page fn (Entries.get page w.lru).2,
                w.log ++ [.lruGet page, .readFile (p.pathOf page) "utf8",
                  .compile html p.options, .lruSet page,
                  .header "Content-Type" "text/html", .lruGet page, .call data]⟩, some e⟩
          ∧ sends (render p fs (some page) data w).world.log = sends w.log)
      ∧ (∀ f, p.prod = true → w.lru.lookup page = some f → f data = .error e →
        render p fs (some page) data w
            = ⟨⟨(Entries.get page w.lru).2,
                w.log ++ [.lruGet page, .header "Content-Type" "text/html", .call data]⟩,
               some e⟩
          ∧ sends (render p fs (some page) data w).world.log = sends w.log) := by
  refine ⟨?_, ?_, ?_⟩
  · intro html hfall hread hc
    have h : render p fs (some page) data w
        = ⟨⟨(Entries.get page w.lru).2,
            w.log ++ [.lruGet page, .readFile (p.pathOf page) "utf8",
              .compile html p.options]⟩, some e⟩ := by
      rw [render_reading p fs page data w hp hd hfall, hread,
        readCallback_compile_error p page data html e _ hc]
      simp
    refine ⟨h, ?_⟩
    rw [h]
    simp [sends_append, sends]
  · intro html fn hfall hread hc hf
    have h : render p fs (some page) data w
        = ⟨⟨p.stored page fn (Entries.get page w.lru).2,
            w.log ++ [.lruGet page, .readFile (p.pathOf page) "utf8",
              .compile html p.options, .lruSet page,
              .header "Content-Type" "text/html", .lruGet page, .call data]⟩, some e⟩ := by
      rw [render_reading p fs page data w hp hd hfall, hread,
        readCallback_compiled p page data html fn _ hc, hf]
      simp
    refine ⟨h, ?_⟩
    rw [h]
    simp [sends_append, sends]
  · intro f hprod hl hf
    have h := render_hit p fs page data w f hp hd hprod hl
    rw [hf] at h
    refine ⟨h, ?_⟩
    rw [h]
    simp [sends_append, sends]

/-! ## The load-then-render variant -/

/-- C8: when the first key of the engine mapping is `marko`, setup binds
`reply.view` to `viewMarko`.  For truthy `page` and `data`, `viewMarko` calls
`engine.load` once, with `join(templatesDir, page)`, never touches the cache
and never reads a file; when `load` throws, the exception escapes and nothing
else is done.  With `template` the loaded object: when
`opts.stream` is truthy the call sends `template.stream(data)` and sets no
header; otherwise it calls `renderToString`, and sends the error unchanged,
with no header, when the callback receives one, or sets `Content-Type` to
`text/html` and sends the string when it receives one. -/
theorem marko_load_then_render (p : Plugin) (page : String) (data : Value)
    (ropts : Option RenderOptions) (w : World)
    (hp : pageTruthy (some page) = true) (hd : data.truthy = true) :
    (∀ host opts engine rest, opts.engine = some (("marko", engine) :: rest) →
        (fastifyView host opts).1
          = [.hlru (Plugin.max ⟨host, opts, engine⟩),
             .decorateReply "view" Variant.viewMarko, .next none])
      ∧ (viewMarko p (some page) data ropts w).world.lru = w.lru
      ∧ (∀ e, p.engine.load (p.pathOf page) = .error e →
          viewMarko p (some page) data ropts w
            = ⟨⟨w.lru, w.log ++ [.load (p.pathOf page)]⟩, some e⟩)
      ∧ ∀ template, p.engine.load (p.pathOf page) = .ok template →
          (streamRequested ropts = true →
            viewMarko p (some page) data ropts w
              = ⟨⟨w.lru, w.log ++ [.load (p.pathOf page), .stream data,
                  .send (.stream (template.stream data))]⟩, none⟩)
          ∧ (streamRequested ropts = false →
              (∀ e, template.renderToString data = .error e →
                viewMarko p (some page) data ropts w
                  = ⟨⟨w.lru, w.log ++ [.load (p.pathOf page), .renderToString data,
                      .send (.error e)]⟩, none⟩)
              ∧ (∀ html, template.renderToString data = .ok html →
                viewMarko p (some page) data ropts w
                  = ⟨⟨w.lru, w.log ++ [.load (p.pathOf page), .renderToString data,
                      .header "Content-Type" "text/html", .send (.html html)]⟩, none⟩)) := by
  have hv : viewMarko p (some page) data ropts w
      = match p.engine.load (p.pathOf page) with
        | .error e => ⟨⟨w.lru, w.log ++ [.load (p.pathOf page)]⟩, some e⟩
        | .ok template =>
          if streamRequested ropts then
            ⟨⟨w.lru, w.log ++ [.load (p.pathOf page), .stream data,
              .send (.stream (template.stream data))]⟩, none⟩
          else
            match template.renderToString data with
            | .error err =>
              ⟨⟨w.lru, w.log ++ [.load (p.pathOf page), .renderToString data,
                .send (.error err)]⟩, none⟩
            | .ok html =>
              ⟨⟨w.lru, w.log ++ [.load (p.pathOf page), .renderToString data,
                .header "Content-Type" "text/html", .send (.html html)]⟩, none⟩ := by
    unfold viewMarko
    simp only [hp, hd, Bool.not_true, Bool.or_self, Bool.false_eq_true, if_false,
      Option.getD_some, Plugin.pathOf, World.emit]
    cases p.engine.load (p.host.join p.templatesDir page) with
    | error e => rfl
    | ok template =>
      by_cases hs : streamRequested ropts = true
      · simp [hs]
      · simp only [hs, Bool.false_eq_true, if_false]
        cases template.renderToString data <;> simp
  refine ⟨?_, ?_, ?_, ?_⟩
  · intro host opts engine rest h
    unfold fastifyView
    rw [h]
    rfl
  · rw [hv]
    cases p.engine.load (p.pathOf page) with
    | error e => rfl
    | ok template =>
      by_cases hs : streamRequested ropts = true
      · simp [hs]
      · simp only [hs, Bool.false_eq_true, if_false]
        cases template.renderToString data <;> rfl
  · intro e he
    rw [hv, he]
  · intro template hl
    rw [hv, hl]
    refine ⟨fun hs => by simp [hs], fun hs => ⟨fun e he => ?_, fun html hh => ?_⟩⟩
    · simp [hs, he]
    · simp [hs, hh]

/-- Witness for C8: a streamed render on the sample load-then-render engine. -/
theorem marko_load_then_render_witness :
    viewMarko markoPlugin (some "index.marko") (.obj []) (some ⟨.bool true⟩) World.init
      = ⟨⟨[], [.load "/app/templates/index.marko", .stream (.obj []),
          .send (.stream ⟨["<p>", "/app/templates/index.marko", "</p>"]⟩)]⟩, none⟩ :=
  ((marko_load_then_render markoPlugin "index.marko" (.obj []) (some ⟨.bool true⟩)
    World.init rfl rfl).2.2.2
    { renderToString := fun d => match d with
        | .num _ => .error ⟨"render failed"⟩
        | _ => .ok ("<p>" ++ "/app/templates/index.marko" ++ "</p>")
      stream := fun _ => ⟨["<p>", "/app/templates/index.marko", "</p>"]⟩ } rfl).1 rfl

/-! ## The cache invariant -/

theorem mem_of_lookup (key : String) (v : Compiled) (es : Entries)
    (h : es.lookup key = some v) : (key, v) ∈ es := by
  induction es with
  | nil => simp at h
  | cons e es ih =>
    obtain ⟨k, v2⟩ := e
    by_cases hk : key = k
    · subst hk
      simp [List.lookup_cons] at h
      simp [h]
    · have hne : (key == k) = false := by simpa using hk
      simp only [List.lookup_cons, hne] at h
      exact List.mem_cons_of_mem _ (ih h)

theorem mem_erase (key : String) (es : Entries) (kv : String × Compiled)
    (h : kv ∈ Entries.erase key es) : kv ∈ es :=
  (List.mem_filter.1 h).1

theorem mem_get (key : String) (es : Entries) (kv : String × Compiled)
    (h : kv ∈ (Entries.get key es).2) : kv ∈ es := by
  unfold Entries.get at h
  cases hl : es.lookup key with
  | none =>
    rw [hl] at h
    exact h
  | some v =>
    rw [hl] at h
    rcases List.mem_cons.1 h with h | h
    · rw [h]
      exact mem_of_lookup key v es hl
    · exact mem_erase key es kv h

theorem mem_stored (p : Plugin) (key : String) (fn : Compiled) (es : Entries)
    (kv : String × Compiled) (h : kv ∈ p.stored key fn es) : kv = (key, fn) ∨ kv ∈ es := by
  have h1 := mem_get key _ kv h
  rcases List.mem_cons.1 (List.mem_of_mem_take h1) with h2 | h2
  · exact Or.inl h2
  · exact Or.inr (mem_erase key es kv h2)

/-- The cache after one render: untouched; or, for a valid request, the cache
after the `get` with no write; or the cache after a `set` that followed a
successful read and compilation. -/
theorem render_outcome (p : Plugin) (fs : FileSystem) (page : Option String)
    (data : Value) (w : World) :
    ((render p fs page data w).world.lru = w.lru
        ∧ writes (render p fs page data w).world.log = writes w.log)
      ∨ ∃ key, page = some key ∧ pageTruthy page = true ∧ data.truthy = true
          ∧ (((render p fs page data w).world.lru = (Entries.get key w.lru).2
                ∧ writes (render p fs page data w).world.log = writes w.log)
              ∨ ∃ html fn, fs (p.pathOf key) = .ok html
                  ∧ p.engine.compile html p.options = .ok fn
                  ∧ (render p fs page data w).world.lru
                      = p.stored key fn (Entries.get key w.lru).2) := by
  by_cases hin : pageTruthy page = false ∨ data.truthy = false
  · left
    rw [render_missing p fs page data w hin]
    simp [writes_append, writes]
  · right
    have hp : pageTruthy page = true := by
      cases h : pageTruthy page
      · exact absurd (Or.inl h) hin
      · rfl
    have hd : data.truthy = true := by
      cases h : data.truthy
      · exact absurd (Or.inr h) hin
      · rfl
    cases page with
    | none => simp [pageTruthy] at hp
    | some key =>
      refine ⟨key, rfl, hp, hd, ?_⟩
      by_cases hfall : w.lru.lookup key = none ∨ p.prod = false
      · rw [render_reading p fs key data w hp hd hfall]
        cases hread : fs (p.pathOf key) with
        | error e =>
          left
          rw [readCallback_error]
          simp [writes_append, writes]
        | ok html =>
          cases hc : p.engine.compile html p.options with
          | error e =>
            left
            rw [readCallback_compile_error p key data html e _ hc]
            simp [writes_append, writes]
          | ok fn =>
            right
            refine ⟨html, fn, rfl, hc, ?_⟩
            rw [readCallback_compiled p key data html fn _ hc]
            cases fn data <;> rfl
      · left
        have hprod : p.prod = true := by
          cases h : p.prod
          · exact absurd (Or.inr h) hfall
          · rfl
        cases hl : w.lru.lookup key with
        | none => exact absurd (Or.inl hl) hfall
        | some f =>
          rw [render_hit p fs key data w f hp hd hprod hl]
          cases f data <;> simp [writes_append, writes]

/-- An entry held after a render was held before it or was stored by it. -/
theorem render_mem (p : Plugin) (r : Request) (w : World) (k : String) (v : Compiled)
    (h : (k, v) ∈ (render p r.fs r.page r.data w).world.lru) :
    (k, v) ∈ w.lru ∨ StoredBy p r k v := by
  rcases render_outcome p r.fs r.page r.data w with ⟨h1, _⟩ | ⟨key, hk, hp, hd, h2⟩
  · rw [h1] at h
    exact Or.inl h
  · rcases h2 with ⟨h1, _⟩ | ⟨html, fn, hread, hc, h1⟩
    · rw [h1] at h
      exact Or.inl (mem_get key w.lru _ h)
    · rw [h1] at h
      rcases mem_stored p key fn _ _ h with h3 | h3
      · right
        obtain ⟨rfl, rfl⟩ := Prod.mk.inj h3
        exact ⟨hk, hp, hd, html, hread, hc⟩
      · exact Or.inl (mem_get key w.lru _ h3)

theorem serve_mem (p : Plugin) (reqs : List Request) (w : World) (k : String)
    (v : Compiled) (h : (k, v) ∈ (serve p w reqs).lru) :
    (k, v) ∈ w.lru ∨ ∃ r ∈ reqs, StoredBy p r k v := by
  induction reqs generalizing w with
  | nil => exact Or.inl h
  | cons r rs ih =>
    rcases ih _ h with h1 | ⟨r2, hr2, hs⟩
    · rcases render_mem p r w k v h1 with h2 | h2
      · exact Or.inl h2
      · exact Or.inr ⟨r, List.mem_cons_self _ _, h2⟩
    · exact Or.inr ⟨r2, List.mem_cons_of_mem _ hr2, hs⟩

/-- C6: over every sequence of renders from the empty cache, each entry
`(k, v)` held by the cache was stored by a request of the sequence for page
`k` whose read succeeded and whose source compiled to `v`.  A render that is
not such a request (missing data, failed read, failed compilation) performs
no cache write and leaves every binding as it was.  When a compiled template
throws on its data, the entry of the page stays: the freshly compiled function
when it was just stored, the cached function, with no write, when it was
served from the cache. -/
theorem cache_holds_only_compiled_reads (p : Plugin) :
    (∀ (reqs : List Request) (k : String) (v : Compiled),
        (k, v) ∈ (serve p World.init reqs).lru → ∃ r ∈ reqs, StoredBy p r k v)
      ∧ (∀ (fs : FileSystem) (page : Option String) (data : Value) (w : World),
          (¬ ∃ key html fn, page = some key ∧ pageTruthy page = true ∧ data.truthy = true
              ∧ fs (p.pathOf key) = .ok html ∧ p.engine.compile html p.options = .ok fn) →
          writes (render p fs page data w).world.log = writes w.log
            ∧ ∀ k, (render p fs page data w).world.lru.lookup k = w.lru.lookup k)
      ∧ (∀ (fs : FileSystem) (page : String) (data : Value) (w : World) (html : String)
          (fn : Compiled) (e : Err),
          pageTruthy (some page) = true → data.truthy = true →
          (w.lru.lookup page = none ∨ p.prod = false) →
          fs (p.pathOf page) = .ok html → p.engine.compile html p.options = .ok fn →
          fn data = .error e →
          (render p fs (some page) data w).world.lru.lookup page = some fn)
      ∧ (∀ (fs : FileSystem) (page : String) (data : Value) (w : World) (f : Compiled)
          (e : Err),
          pageTruthy (some page) = true → data.truthy = true →
          p.prod = true → w.lru.lookup page = some f → f data = .error e →
          (render p fs (some page) data w).world.lru.lookup page = some f
            ∧ writes (render p fs (some page) data w).world.log = writes w.log) := by
  refine ⟨?_, ?_, ?_, ?_⟩
  · intro reqs k v h
    rcases serve_mem p reqs World.init k v h with h1 | h1
    · simp [World.init] at h1
    · exact h1
  · intro fs page data w hno
    rcases render_outcome p fs page data w with ⟨h1, h2⟩ | ⟨key, hk, hp, hd, h3⟩
    · exact ⟨h2, fun k => by rw [h1]⟩
    · rcases h3 with ⟨h1, h2⟩ | ⟨html, fn, hread, hc, _⟩
      · exact ⟨h2, fun k => by rw [h1, lookup_get]⟩
      · exact absurd ⟨key, html, fn, hk, hp, hd, hread, hc⟩ hno
  · intro fs page data w html fn e hp hd hfall hread hc _
    exact render_compiled_lookup p fs page data w html fn hp hd hfall hread hc
  · intro fs page data w f e hp hd hprod hl hf
    have h := render_hit p fs page data w f hp hd hprod hl
    rw [hf] at h
    rw [h]
    refine ⟨?_, by simp [writes_append, writes]⟩
    simp only [lookup_get]
    exact hl

/-- Witness for C6: a failed read, writing nothing, on the sample plugin. -/
theorem cache_holds_only_compiled_reads_witness :
    writes (render prodPlugin sampleFs (some "missing.ejs") (.obj []) World.init).world.log
        = writes World.init.log
      ∧ ∀ k, (render prodPlugin sampleFs (some "missing.ejs") (.obj []) World.init).world.lru.lookup k
          = World.init.lru.lookup k :=
  (cache_holds_only_compiled_reads prodPlugin).2.1 sampleFs (some "missing.ejs") (.obj [])
    World.init (by
      rintro ⟨key, html, fn, hk, _, _, hread, _⟩
      obtain rfl : "missing.ejs" = key := Option.some.inj hk
      have h2 : (Except.error ⟨"ENOENT: no such file or directory"⟩ : Except Err String)
          = Except.ok html := hread
      cases h2)

end PointOfView
